import Mathlib

/-- Special value for the "all vehicles" (wildcard) authorization scope,
bot.js line 17; the server variant writes the same literal inline. -/
def ALL_VEHICLES : String := "*ALL*"

/-- Admin role string from ROLE_TYPES, bot.js lines 20-23. -/
def ROLE_ADMIN : String := "admin"

/-- Helper role string from ROLE_TYPES, bot.js lines 20-23. -/
def ROLE_HELPER : String := "helper"

/-- A row of the licenses table, bot.js lines 29-36: key, owner id, owner tag.
The created_at timestamp is dropped: it never influences control flow. -/
structure LicenseRow where
  license_key : String
  owner_id : String
  owner_tag : String
deriving DecidableEq

/-- A row of the authorized_users table, bot.js lines 38-48.  The serial id and
created_at never influence control flow and are dropped. -/
structure AuthRow where
  license_key : String
  username : String
  vehicle : String
deriving DecidableEq

/-- A row of the paused_licenses table, bot.js lines 50-58. -/
structure PausedRow where
  license_key : String
  owner_id : String
  owner_tag : String
deriving DecidableEq

/-- A row of the license_admins table, bot.js lines 60-72. -/
structure StaffRow where
  license_key : String
  user_id : String
  user_tag : String
  role_type : String
  added_by : String
deriving DecidableEq

/-- The database state shared by bot.js and the SQL server variant. -/
structure DB where
  licenses : List LicenseRow
  authorized_users : List AuthRow
  paused_licenses : List PausedRow
  license_admins : List StaffRow
deriving DecidableEq

/-- The SELECT on authorized_users by (license_key, username, vehicle) that both
addUserToLicense variants repeat (bot.js lines 144-147 and 156-159, part_000
lines 203-206). -/
def hasAuth (db : DB) (licenseKey username vehicle : String) : Bool :=
  db.authorized_users.any fun r =>
    r.license_key == licenseKey && r.username == username && r.vehicle == vehicle

/-- getUsersForLicense, bot.js lines 123-134: the (username, vehicle) rows of
one license. -/
def getUsersForLicense (db : DB) (licenseKey : String) : List (String × String) :=
  (db.authorized_users.filter fun r => r.license_key == licenseKey).map fun r =>
    (r.username, r.vehicle)

/-- isLicensePaused, bot.js lines 298-309. -/
def isLicensePaused (db : DB) (licenseKey : String) : Bool :=
  db.paused_licenses.any fun p => p.license_key == licenseKey

/-- getUserLicense, bot.js lines 312-323: the license key owned by a user
(first matching row of a SELECT on owner_id). -/
def getUserLicense (db : DB) (userId : String) : Option String :=
  (db.licenses.find? fun l => l.owner_id == userId).map fun l => l.license_key

/-- JavaScript truthiness of an optional string argument: null/undefined and
the empty string are falsy.  Used where the source tests an argument with a
bare if, as in removeUserFromLicense (bot.js line 192, part_000 line 245). -/
def jsTruthy : Option String → Bool
  | none => false
  | some s => !(s == "")

/-- Outcome of bot.js addUserToLicense (lines 136-184): success with the
forAllVehicles flag, or one of the two rejection messages. -/
inductive AddResult where
  | ok (forAllVehicles : Bool)
  | alreadyAll
  | alreadyVehicle
deriving DecidableEq

namespace Bot

/-- addUserToLicense, bot.js lines 136-184.  A null vehicle means the wildcard.
First rejects when the wildcard row exists, then when the exact row exists,
otherwise inserts the row. -/
def addUserToLicense (db : DB) (licenseKey username : String)
    (vehicle : Option String) : AddResult × DB :=
  let actualVehicle := match vehicle with | none => ALL_VEHICLES | some v => v
  if hasAuth db licenseKey username ALL_VEHICLES then (.alreadyAll, db)
  else if hasAuth db licenseKey username actualVehicle then (.alreadyVehicle, db)
  else (.ok (actualVehicle == ALL_VEHICLES),
    { db with authorized_users :=
        db.authorized_users ++ [⟨licenseKey, username, actualVehicle⟩] })

/-- removeUserFromLicense, bot.js lines 186-231.  The vehicle argument is
tested for truthiness; a truthy vehicle deletes the exact triple, otherwise
every row of the (license, username) pair is deleted.  Returns false when the
DELETE touched no row. -/
def removeUserFromLicense (db : DB) (licenseKey username : String)
    (vehicle : Option String) : Bool × DB :=
  if jsTruthy vehicle then
    let v := vehicle.getD ""
    let remaining := db.authorized_users.filter fun r =>
      !(r.license_key == licenseKey && r.username == username && r.vehicle == v)
    if remaining.length == db.authorized_users.length then (false, db)
    else (true, { db with authorized_users := remaining })
  else
    let remaining := db.authorized_users.filter fun r =>
      !(r.license_key == licenseKey && r.username == username)
    if remaining.length == db.authorized_users.length then (false, db)
    else (true, { db with authorized_users := remaining })

end Bot

namespace Server

/-- addUserToLicense of the SQL server variant, part_000 lines 195-236.
Rejects only when the exact (license, username, vehicle) row exists; when the
wildcard is being added it first deletes every row of the (license, username)
pair, then inserts. -/
def addUserToLicense (db : DB) (licenseKey username : String)
    (vehicle : Option String) : Bool × DB :=
  let actualVehicle := match vehicle with | none => ALL_VEHICLES | some v => v
  if hasAuth db licenseKey username actualVehicle then (false, db)
  else
    let db1 :=
      if actualVehicle == ALL_VEHICLES then
        { db with authorized_users := db.authorized_users.filter fun r =>
            !(r.license_key == licenseKey && r.username == username) }
      else db
    (true, { db1 with authorized_users :=
        db1.authorized_users ++ [⟨licenseKey, username, actualVehicle⟩] })

/-- removeUserFromLicense of the SQL server variant, part_000 lines 239-266.
Same DELETE statements as the bot variant; commits either way and returns
whether any row was deleted. -/
def removeUserFromLicense (db : DB) (licenseKey username : String)
    (vehicle : Option String) : Bool × DB :=
  let remaining :=
    if jsTruthy vehicle then
      db.authorized_users.filter fun r =>
        !(r.license_key == licenseKey && r.username == username &&
          r.vehicle == vehicle.getD "")
    else
      db.authorized_users.filter fun r =>
        !(r.license_key == licenseKey && r.username == username)
  (decide (remaining.length < db.authorized_users.length),
   { db with authorized_users := remaining })

/-- checkUserLicense, part_000 lines 155-178: approved when the wildcard row
exists or any row of the (license, username) pair exists. -/
def checkUserLicense (db : DB) (licenseKey username : String) : Bool :=
  if hasAuth db licenseKey username ALL_VEHICLES then true
  else if db.authorized_users.any fun r =>
      r.license_key == licenseKey && r.username == username then true
  else false

end Server

/-- Outcome of addLicenseStaff, bot.js lines 372-416. -/
inductive StaffAddResult where
  | alreadyStaff
  | ownerCannotBeStaff
  | added
deriving DecidableEq

/-- addLicenseStaff, bot.js lines 372-416: rejects when the user is already
staff for the license, then when the user is the license owner, otherwise
inserts the staff row. -/
def addLicenseStaff (db : DB) (licenseKey staffUserId staffUserTag roleType
    addedBy : String) : StaffAddResult × DB :=
  if db.license_admins.any fun a =>
      a.license_key == licenseKey && a.user_id == staffUserId then
    (.alreadyStaff, db)
  else if db.licenses.any fun l =>
      l.license_key == licenseKey && l.owner_id == staffUserId then
    (.ownerCannotBeStaff, db)
  else
    (.added, { db with license_admins :=
        db.license_admins ++ [⟨licenseKey, staffUserId, staffUserTag, roleType, addedBy⟩] })

/-- getUserStaffRoles, bot.js lines 460-474: the join of license_admins with
licenses on license_key, filtered by user_id, yielding
(license_key, role_type, owner_tag) rows. -/
def getUserStaffRoles (db : DB) (userId : String) : List (String × String × String) :=
  (db.license_admins.filter fun a => a.user_id == userId).flatMap fun a =>
    (db.licenses.filter fun l => l.license_key == a.license_key).map fun l =>
      (a.license_key, a.role_type, l.owner_tag)

/-- Result record of canUserManageLicense, bot.js lines 476-507. -/
structure ManageCheck where
  canManage : Bool
  isOwner : Bool
  role : Option String
deriving DecidableEq

/-- canUserManageLicense, bot.js lines 476-507: the owner can always manage;
staff can manage unless admin is required and their role is not admin. -/
def canUserManageLicense (db : DB) (userId licenseKey : String)
    (requireAdmin : Bool) : ManageCheck :=
  if db.licenses.any fun l =>
      l.license_key == licenseKey && l.owner_id == userId then
    { canManage := true, isOwner := true, role := some "owner" }
  else
    match db.license_admins.find? fun a =>
        a.license_key == licenseKey && a.user_id == userId with
    | some staff =>
      if requireAdmin && !(staff.role_type == ROLE_ADMIN) then
        { canManage := false, isOwner := false, role := some staff.role_type }
      else
        { canManage := true, isOwner := false, role := some staff.role_type }
    | none => { canManage := false, isOwner := false, role := none }

/-- deleteLicense, bot.js lines 113-121: runs the DELETE (which cascades to
authorized_users, paused_licenses and license_admins via the foreign keys of
lines 42, 53, 64) and returns true whether or not a row matched; false is
returned only on a storage error, which the embedding does not model. -/
def deleteLicense (db : DB) (licenseKey : String) : Bool × DB :=
  (true,
    { licenses := db.licenses.filter fun l => !(l.license_key == licenseKey)
      authorized_users := db.authorized_users.filter fun r => !(r.license_key == licenseKey)
      paused_licenses := db.paused_licenses.filter fun p => !(p.license_key == licenseKey)
      license_admins := db.license_admins.filter fun a => !(a.license_key == licenseKey) })

/-- Outcome of the deletelicense command, bot.js lines 1081-1109. -/
inductive DeleteOutcome where
  | notBotOwner
  | keyNotFound
  | deleted
deriving DecidableEq

/-- The deletelicense command handler, bot.js lines 1081-1109: only the bot
owner may delete; an unknown key is reported before deleteLicense is called. -/
def deleteLicenseCommand (db : DB) (userId botOwnerId licenseKey : String) :
    DeleteOutcome × DB :=
  if !(userId == botOwnerId) then (.notBotOwner, db)
  else if db.licenses.any fun l => l.license_key == licenseKey then
    let res := deleteLicense db licenseKey
    (.deleted, res.2)
  else (.keyNotFound, db)

/-- Outcome of the transferlicense command, bot.js lines 1202-1278. -/
inductive TransferResult where
  | sameUser
  | fromHasNoLicense
  | toHasLicense (existingKey : String)
  | updateFailed
  | ok (licenseKey : String)
deriving DecidableEq

/-- The transferlicense command handler, bot.js lines 1202-1278 (after the bot
owner gate): rejects a self transfer, a source owner without a license and a
target owner with one; otherwise rewrites the owner columns of the licenses
row and of any paused_licenses row for that key.  Grant and staff rows are not
touched. -/
def transferLicense (db : DB) (fromId fromTag toId toTag : String) :
    TransferResult × DB :=
  if fromId == toId then (.sameUser, db)
  else
    match getUserLicense db fromId with
    | none => (.fromHasNoLicense, db)
    | some fromKey =>
      match getUserLicense db toId with
      | some k2 => (.toHasLicense k2, db)
      | none =>
        let updated := db.licenses.map fun l =>
          if l.license_key == fromKey then
            { l with owner_id := toId, owner_tag := toTag } else l
        if db.licenses.countP (fun l => l.license_key == fromKey) == 0 then
          (.updateFailed, db)
        else
          let pausedUpdated := db.paused_licenses.map fun p =>
            if p.license_key == fromKey then
              { p with owner_id := toId, owner_tag := toTag } else p
          (.ok fromKey, { db with licenses := updated, paused_licenses := pausedUpdated })

/-- Outcome of the acting-license resolution step shared by the authorize,
deauthorize and authorized command handlers (bot.js lines 784-828, 860-910,
943-987). -/
inductive ResolveOutcome where
  | ok (licenseKey : String)
  | noPermission
  | noLicenseOrRole
  | ambiguous
deriving DecidableEq

/-- The acting-license resolution step that the authorize (bot.js lines
784-821), deauthorize (lines 860-900) and authorized (lines 943-980) handlers
repeat verbatim: an explicitly specified key is permission checked
(requireAdmin is true only on the deauthorize path); otherwise the actor's own
license is used; otherwise the staff roles decide: zero is an error, more than
one demands explicit disambiguation, exactly one is used. -/
def resolveActingLicense (db : DB) (userId : String) (specifiedKey : Option String)
    (requireAdmin : Bool) : ResolveOutcome :=
  match specifiedKey with
  | some key =>
    if (canUserManageLicense db userId key requireAdmin).canManage then .ok key
    else .noPermission
  | none =>
    match getUserLicense db userId with
    | some ownKey => .ok ownKey
    | none =>
      match getUserStaffRoles db userId with
      | [] => .noLicenseOrRole
      | [r] => .ok r.1
      | _ :: _ :: _ => .ambiguous

/-- Outcome of the authorize command handler, bot.js lines 783-857. -/
inductive AuthorizeOutcome where
  | noPermission
  | noLicenseOrRole
  | ambiguous
  | paused
  | added (forAllVehicles : Bool)
  | rejected (r : AddResult)
deriving DecidableEq

/-- The authorize command handler, bot.js lines 783-857: resolve the acting
license, re-check the permission, reject when the license is paused, then call
addUserToLicense. -/
def authorizeCommand (db : DB) (userId : String) (specifiedKey : Option String)
    (username : String) (vehicle : Option String) : AuthorizeOutcome × DB :=
  match resolveActingLicense db userId specifiedKey false with
  | .noPermission => (.noPermission, db)
  | .noLicenseOrRole => (.noLicenseOrRole, db)
  | .ambiguous => (.ambiguous, db)
  | .ok lic =>
    if !(canUserManageLicense db userId lic false).canManage then (.noPermission, db)
    else if isLicensePaused db lic then (.paused, db)
    else
      let res := Bot.addUserToLicense db lic username vehicle
      match res.1 with
      | .ok forAll => (.added forAll, res.2)
      | r => (.rejected r, res.2)

/-- Outcome of the deauthorize command handler, bot.js lines 859-940. -/
inductive DeauthorizeOutcome where
  | noPermission
  | noLicenseOrRole
  | ambiguous
  | paused
  | removed
  | notFoundOrError
deriving DecidableEq

/-- The deauthorize command handler, bot.js lines 859-940: as authorize but the
permission checks require the admin role, and removeUserFromLicense is
called. -/
def deauthorizeCommand (db : DB) (userId : String) (specifiedKey : Option String)
    (username : String) (vehicle : Option String) : DeauthorizeOutcome × DB :=
  match resolveActingLicense db userId specifiedKey true with
  | .noPermission => (.noPermission, db)
  | .noLicenseOrRole => (.noLicenseOrRole, db)
  | .ambiguous => (.ambiguous, db)
  | .ok lic =>
    if !(canUserManageLicense db userId lic true).canManage then (.noPermission, db)
    else if isLicensePaused db lic then (.paused, db)
    else
      let res := Bot.removeUserFromLicense db lic username vehicle
      if res.1 then (.removed, res.2) else (.notFoundOrError, res.2)

/-- Outcome of the authorized (list) command handler, bot.js lines 942-1027. -/
inductive AuthorizedListOutcome where
  | noPermission
  | noLicenseOrRole
  | ambiguous
  | listing (licenseKey : String) (paused : Bool) (users : List (String × String))
deriving DecidableEq

/-- The authorized (list) command handler, bot.js lines 942-1027: resolves the
acting license exactly as authorize does and then only reads. -/
def authorizedCommand (db : DB) (userId : String) (specifiedKey : Option String) :
    AuthorizedListOutcome :=
  match resolveActingLicense db userId specifiedKey false with
  | .noPermission => .noPermission
  | .noLicenseOrRole => .noLicenseOrRole
  | .ambiguous => .ambiguous
  | .ok lic =>
    if !(canUserManageLicense db userId lic false).canManage then .noPermission
    else .listing lic (isLicensePaused db lic) (getUsersForLicense db lic)

namespace FileSrv

/-- JavaScript String.prototype.trim on one line of the file, modelled on lists
of characters; Char.isWhitespace stands in for the JS whitespace class, which
agrees with it on every character the claims mention. -/
def jsTrim (l : List Char) : List Char :=
  ((l.dropWhile Char.isWhitespace).reverse.dropWhile Char.isWhitespace).reverse

/-- getApprovedUsers of the file-backed variant, part_000 lines 446-456: split
the file into lines, trim each, and drop empty lines and lines starting with
the comment character. -/
def getApprovedUsers (file : List (List Char)) : List (List Char) :=
  (file.map jsTrim).filter fun line => !line.isEmpty && !(line.head? == some '#')

/-- addApprovedUser, part_000 lines 479-491: when the (filtered) approved list
does not contain the username, append it as a new line and return true. -/
def addApprovedUser (file : List (List Char)) (username : List Char) :
    Bool × List (List Char) :=
  if (getApprovedUsers file).contains username then (false, file)
  else (true, file ++ [username])

/-- The approval test of GET /check-user/:username, part_000 lines 539-563. -/
def checkUser (file : List (List Char)) (username : List Char) : Bool :=
  (getApprovedUsers file).contains username

end FileSrv

/-- The §3 invariant of the spec: no license owner also appears as staff of
their own license. -/
def OwnerNotStaff (db : DB) : Prop :=
  ∀ l ∈ db.licenses, ∀ a ∈ db.license_admins,
    l.license_key = a.license_key → l.owner_id ≠ a.user_id

/-- No grant row at all remains for (license, username). -/
def NoGrantsFor (db : DB) (licenseKey username : String) : Prop :=
  ∀ r ∈ db.authorized_users,
    ¬(r.license_key = licenseKey ∧ r.username = username)

/-- Every remaining grant row for (license, username) is the wildcard row. -/
def NoConcreteFor (db : DB) (licenseKey username : String) : Prop :=
  ∀ r ∈ db.authorized_users,
    r.license_key = licenseKey → r.username = username → r.vehicle = ALL_VEHICLES

/-- A username the file-backed approval check never accepts, whatever the file
holds. -/
def NeverApproved (username : List Char) : Prop :=
  ∀ file, FileSrv.checkUser file username = false

instance (db : DB) : Decidable (OwnerNotStaff db) := by
  unfold OwnerNotStaff; infer_instance

instance (db : DB) (licenseKey username : String) :
    Decidable (NoGrantsFor db licenseKey username) := by
  unfold NoGrantsFor; infer_instance

instance (db : DB) (licenseKey username : String) :
    Decidable (NoConcreteFor db licenseKey username) := by
  unfold NoConcreteFor; infer_instance

/-- A filter that kept the length of the list kept every element. -/
theorem filter_length_eq_all {α : Type} (p : α → Bool) (l : List α)
    (h : (l.filter p).length = l.length) : ∀ a ∈ l, p a = true := by
  have heq : l.filter p = l := (List.filter_sublist l).eq_of_length h
  exact fun a ha => List.filter_eq_self.mp heq a ha

/-- After a scope-omitted remove, no row of the pair is left, whichever branch
of the length test was taken. -/
theorem botRemoveAll_noGrants (db : DB) (licenseKey username : String) :
    NoGrantsFor (Bot.removeUserFromLicense db licenseKey username none).2
      licenseKey username := by
  unfold NoGrantsFor Bot.removeUserFromLicense
  simp only [jsTruthy, Bool.false_eq_true, if_false]
  split
  · next hlen =>
    have hlen2 : (db.authorized_users.filter fun r =>
        !(r.license_key == licenseKey && r.username == username)).length =
        db.authorized_users.length := by
      exact beq_iff_eq.mp hlen
    intro r hr
    have hall := filter_length_eq_all _ db.authorized_users hlen2 r hr
    rw [not_and_or]
    simpa using hall
  · intro r hr
    have hp := (List.mem_filter.mp hr).2
    rw [not_and_or]
    simpa using hp

/-- C10: calling remove with the empty string as the scope behaves exactly like
the scope-omitted call in both variants, because the implementation tests the
scope argument for truthiness; it therefore deletes every grant row of the
(license, subject) pair. -/
theorem C10_empty_scope_removes_all (db : DB) (licenseKey username : String) :
    Bot.removeUserFromLicense db licenseKey username (some "") =
      Bot.removeUserFromLicense db licenseKey username none ∧
    Server.removeUserFromLicense db licenseKey username (some "") =
      Server.removeUserFromLicense db licenseKey username none ∧
    NoGrantsFor (Bot.removeUserFromLicense db licenseKey username (some "")).2
      licenseKey username := by
  refine ⟨rfl, rfl, ?_⟩
  have h : Bot.removeUserFromLicense db licenseKey username (some "") =
      Bot.removeUserFromLicense db licenseKey username none := rfl
  rw [h]
  exact botRemoveAll_noGrants db licenseKey username

/-- While the wildcard row exists, the bot wildcard add rejects with the
already-has-access-to-all message and leaves the store unchanged. -/
theorem bot_add_wildcard_when_all (db : DB) (L S : String)
    (h : hasAuth db L S ALL_VEHICLES = true) :
    Bot.addUserToLicense db L S none = (.alreadyAll, db) := by
  simp [Bot.addUserToLicense, h]

/-- While the wildcard row exists, the SQL server wildcard add returns false
and leaves the store unchanged. -/
theorem server_add_wildcard_when_all (db : DB) (L S : String)
    (h : hasAuth db L S ALL_VEHICLES = true) :
    Server.addUserToLicense db L S none = (false, db) := by
  simp [Server.addUserToLicense, h]

/-- C4: a second wildcard add is an error, never a silent success: the bot
variant answers with the already-has-access-to-all message, the SQL server
variant returns false, and neither changes the store again. -/
theorem C4_repeat_wildcard_add_errors (db db2 : DB) (L S L2 S2 : String) :
    Bot.addUserToLicense (Bot.addUserToLicense db L S none).2 L S none =
      (.alreadyAll, (Bot.addUserToLicense db L S none).2) ∧
    Server.addUserToLicense (Server.addUserToLicense db2 L2 S2 none).2 L2 S2 none =
      (false, (Server.addUserToLicense db2 L2 S2 none).2) := by
  constructor
  · by_cases h : hasAuth db L S ALL_VEHICLES = true
    · rw [bot_add_wildcard_when_all db L S h]
      exact bot_add_wildcard_when_all db L S h
    · have hf : hasAuth db L S ALL_VEHICLES = false := by
        simpa using h
      have hstep : Bot.addUserToLicense db L S none =
          (.ok true, { db with authorized_users :=
            db.authorized_users ++ [⟨L, S, ALL_VEHICLES⟩] }) := by
        simp [Bot.addUserToLicense, hf]
      rw [hstep]
      have hAll : hasAuth { db with authorized_users :=
          db.authorized_users ++ [⟨L, S, ALL_VEHICLES⟩] } L S ALL_VEHICLES = true := by
        simp [hasAuth]
      exact bot_add_wildcard_when_all _ L S hAll
  · by_cases h : hasAuth db2 L2 S2 ALL_VEHICLES = true
    · rw [server_add_wildcard_when_all db2 L2 S2 h]
      exact server_add_wildcard_when_all db2 L2 S2 h
    · have hf : hasAuth db2 L2 S2 ALL_VEHICLES = false := by
        simpa using h
      have hstep : Server.addUserToLicense db2 L2 S2 none =
          (true, { db2 with authorized_users :=
            (db2.authorized_users.filter fun r =>
              !(r.license_key == L2 && r.username == S2)) ++
              [⟨L2, S2, ALL_VEHICLES⟩] }) := by
        simp [Server.addUserToLicense, hf]
      rw [hstep]
      have hAll : hasAuth { db2 with authorized_users :=
          (db2.authorized_users.filter fun r =>
            !(r.license_key == L2 && r.username == S2)) ++
            [⟨L2, S2, ALL_VEHICLES⟩] } L2 S2 ALL_VEHICLES = true := by
        simp [hasAuth]
      exact server_add_wildcard_when_all _ L2 S2 hAll

/-- C1 fails on bot.js: after a grant of car1, a wildcard add succeeds without
deleting the concrete row, so listForLicense still shows the concrete scope
alongside the wildcard. -/
theorem C1_counterexample :
    (Bot.addUserToLicense ⟨[⟨"L", "O", "Otag"⟩], [⟨"L", "S", "car1"⟩], [], []⟩
        "L" "S" none).1 = AddResult.ok true ∧
    ("S", "car1") ∈ getUsersForLicense
      (Bot.addUserToLicense ⟨[⟨"L", "O", "Otag"⟩], [⟨"L", "S", "car1"⟩], [], []⟩
        "L" "S" none).2 "L" ∧
    "car1" ≠ ALL_VEHICLES := by decide

/-- C1 amended: in the SQL server variant a successful wildcard add first
deletes every row of the (license, subject) pair and then inserts the wildcard
row, so no concrete row remains; in the bot variant the wildcard add only
appends the wildcard row, keeping any concrete rows. -/
theorem C1_amended_wildcard_supersede (db : DB) (L S : String)
    (h : hasAuth db L S ALL_VEHICLES = false) :
    Server.addUserToLicense db L S none =
      (true, { db with authorized_users :=
        (db.authorized_users.filter fun r =>
          !(r.license_key == L && r.username == S)) ++ [⟨L, S, ALL_VEHICLES⟩] }) ∧
    NoConcreteFor (Server.addUserToLicense db L S none).2 L S ∧
    Bot.addUserToLicense db L S none =
      (.ok true, { db with authorized_users :=
        db.authorized_users ++ [⟨L, S, ALL_VEHICLES⟩] }) := by
  have h1 : Server.addUserToLicense db L S none =
      (true, { db with authorized_users :=
        (db.authorized_users.filter fun r =>
          !(r.license_key == L && r.username == S)) ++ [⟨L, S, ALL_VEHICLES⟩] }) := by
    simp [Server.addUserToLicense, h]
  refine ⟨h1, ?_, ?_⟩
  · rw [h1]
    intro r hr
    rcases List.mem_append.mp hr with hmem | hone
    · have hp := (List.mem_filter.mp hmem).2
      intro hL hU
      simp [hL, hU] at hp
    · intro _ _
      have : r = ⟨L, S, ALL_VEHICLES⟩ := by simpa using hone
      rw [this]
  · simp [Bot.addUserToLicense, h]

/-- Witness for the amended C1 at a concrete store holding one concrete
grant. -/
theorem C1_amended_witness :
    hasAuth ⟨[⟨"L", "O", "Ot"⟩], [⟨"L", "S", "car1"⟩], [], []⟩
      "L" "S" ALL_VEHICLES = false ∧
    NoConcreteFor (Server.addUserToLicense
      ⟨[⟨"L", "O", "Ot"⟩], [⟨"L", "S", "car1"⟩], [], []⟩ "L" "S" none).2 "L" "S" :=
  ⟨by decide, (C1_amended_wildcard_supersede _ "L" "S" (by decide)).2.1⟩

/-- C2 fails on the SQL server variant: while the wildcard row exists for the
subject, a concrete add is not rejected — it succeeds and inserts the concrete
row next to the wildcard. -/
theorem C2_counterexample :
    (Server.addUserToLicense ⟨[⟨"L", "O", "Ot"⟩], [⟨"L", "S", "*ALL*"⟩], [], []⟩
        "L" "S" (some "car1")).1 = true ∧
    (⟨"L", "S", "car1"⟩ : AuthRow) ∈ (Server.addUserToLicense
        ⟨[⟨"L", "O", "Ot"⟩], [⟨"L", "S", "*ALL*"⟩], [], []⟩
        "L" "S" (some "car1")).2.authorized_users ∧
    hasAuth ⟨[⟨"L", "O", "Ot"⟩], [⟨"L", "S", "*ALL*"⟩], [], []⟩
      "L" "S" ALL_VEHICLES = true := by decide

/-- C2 amended: in the bot variant a concrete add while the wildcard exists is
rejected with the already-has-access-to-all error and the store is unchanged;
in the SQL server variant the same call succeeds and inserts the concrete row
alongside the wildcard. -/
theorem C2_amended_concrete_add_while_wildcard (db : DB) (L S c : String)
    (hW : hasAuth db L S ALL_VEHICLES = true)
    (hc : c ≠ ALL_VEHICLES)
    (hnc : hasAuth db L S c = false) :
    Bot.addUserToLicense db L S (some c) = (.alreadyAll, db) ∧
    Server.addUserToLicense db L S (some c) =
      (true, { db with authorized_users := db.authorized_users ++ [⟨L, S, c⟩] }) := by
  constructor
  · simp [Bot.addUserToLicense, hW]
  · have hcb : (c == ALL_VEHICLES) = false := beq_eq_false_iff_ne.mpr hc
    simp [Server.addUserToLicense, hnc, hcb]

/-- Witness for the amended C2 at a concrete store holding only the wildcard
row. -/
theorem C2_amended_witness :
    hasAuth ⟨[], [⟨"L", "S", "*ALL*"⟩], [], []⟩ "L" "S" ALL_VEHICLES = true ∧
    Bot.addUserToLicense ⟨[], [⟨"L", "S", "*ALL*"⟩], [], []⟩ "L" "S" (some "car1") =
      (.alreadyAll, ⟨[], [⟨"L", "S", "*ALL*"⟩], [], []⟩) :=
  ⟨by decide, (C2_amended_concrete_add_while_wildcard _ "L" "S" "car1"
    (by decide) (by decide) (by decide)).1⟩

/-- C7 fails on deleteLicense: called with a key no license has, it still
returns true. -/
theorem C7_counterexample :
    (deleteLicense ⟨[], [], [], []⟩ "missing").1 = true ∧
    ((⟨[], [], [], []⟩ : DB).licenses.any fun l => l.license_key == "missing") = false := by
  decide

/-- C7 amended: deleteLicense itself returns true whether or not the key
exists; the unknown-key rejection lives in the deletelicense command handler,
which checks existence first and reports not-found without deleting, and
deletes (with cascade) when the key exists. -/
theorem C7_amended_delete_reporting (db db2 : DB) (bid k k2 : String)
    (hUnknown : (db.licenses.any fun l => l.license_key == k) = false)
    (hKnown : (db2.licenses.any fun l => l.license_key == k2) = true) :
    (deleteLicense db k).1 = true ∧
    deleteLicenseCommand db bid bid k = (.keyNotFound, db) ∧
    (deleteLicenseCommand db2 bid bid k2).1 = .deleted ∧
    ((deleteLicenseCommand db2 bid bid k2).2.licenses.any
      fun l => l.license_key == k2) = false ∧
    ((deleteLicenseCommand db2 bid bid k2).2.authorized_users.any
      fun r => r.license_key == k2) = false := by
  refine ⟨rfl, ?_, ?_, ?_, ?_⟩
  · simp [deleteLicenseCommand, hUnknown]
  · simp [deleteLicenseCommand, hKnown]
  · simp [deleteLicenseCommand, deleteLicense, hKnown]
  · simp [deleteLicenseCommand, deleteLicense, hKnown]

/-- Witness for the amended C7: an unknown key is reported and a known key is
deleted, on concrete stores. -/
theorem C7_amended_witness :
    deleteLicenseCommand ⟨[], [], [], []⟩ "root" "root" "missing" =
      (.keyNotFound, ⟨[], [], [], []⟩) ∧
    (deleteLicenseCommand ⟨[⟨"K", "A", "At"⟩], [⟨"K", "S", "car1"⟩], [], []⟩
      "root" "root" "K").1 = .deleted := by
  have h1 := C7_amended_delete_reporting ⟨[], [], [], []⟩
    ⟨[⟨"K", "A", "At"⟩], [⟨"K", "S", "car1"⟩], [], []⟩ "root" "missing" "K"
    (by decide) (by decide)
  exact ⟨h1.2.1, h1.2.2.1⟩

/-- C3 fails on the HTTP admin path: on a store whose only license is paused,
the admin add of the SQL server variant still succeeds and changes the grant
rows. -/
theorem C3_counterexample :
    isLicensePaused ⟨[⟨"K", "U", "Ut"⟩], [], [⟨"K", "U", "Ut"⟩], []⟩ "K" = true ∧
    (Server.addUserToLicense ⟨[⟨"K", "U", "Ut"⟩], [], [⟨"K", "U", "Ut"⟩], []⟩
        "K" "S" (some "car1")).1 = true ∧
    (Server.addUserToLicense ⟨[⟨"K", "U", "Ut"⟩], [], [⟨"K", "U", "Ut"⟩], []⟩
        "K" "S" (some "car1")).2.authorized_users ≠ [] := by decide

/-- C3 amended: a paused license blocks grant mutation on the chat-command
path only — authorize and deauthorize reject with the paused message and leave
the store unchanged — while the read checkUserLicense ignores the pause state
entirely; the HTTP admin mutation path never consults the pause state, so the
SQL server add succeeds on a paused license. -/
theorem C3_amended_pause_blocks_chat_only (db : DB) (u key uname S c : String)
    (veh : Option String) (p : List PausedRow)
    (hPaused : isLicensePaused db key = true)
    (hMgr : (canUserManageLicense db u key false).canManage = true)
    (hMgrA : (canUserManageLicense db u key true).canManage = true)
    (hNoRow : hasAuth db key S c = false)
    (hc : c ≠ ALL_VEHICLES) :
    authorizeCommand db u (some key) uname veh = (.paused, db) ∧
    deauthorizeCommand db u (some key) uname veh = (.paused, db) ∧
    Server.checkUserLicense { db with paused_licenses := p } key S =
      Server.checkUserLicense db key S ∧
    Server.addUserToLicense db key S (some c) =
      (true, { db with authorized_users := db.authorized_users ++ [⟨key, S, c⟩] }) := by
  refine ⟨?_, ?_, rfl, ?_⟩
  · simp [authorizeCommand, resolveActingLicense, hMgr, hPaused]
  · simp [deauthorizeCommand, resolveActingLicense, hMgrA, hPaused]
  · have hcb : (c == ALL_VEHICLES) = false := beq_eq_false_iff_ne.mpr hc
    simp [Server.addUserToLicense, hNoRow, hcb]

/-- Witness for the amended C3 on a concrete paused store managed by its
owner. -/
theorem C3_amended_witness :
    isLicensePaused ⟨[⟨"K", "U", "Ut"⟩], [], [⟨"K", "U", "Ut"⟩], []⟩ "K" = true ∧
    authorizeCommand ⟨[⟨"K", "U", "Ut"⟩], [], [⟨"K", "U", "Ut"⟩], []⟩
      "U" (some "K") "S" none =
      (.paused, ⟨[⟨"K", "U", "Ut"⟩], [], [⟨"K", "U", "Ut"⟩], []⟩) :=
  ⟨by decide, (C3_amended_pause_blocks_chat_only
    ⟨[⟨"K", "U", "Ut"⟩], [], [⟨"K", "U", "Ut"⟩], []⟩ "U" "K" "S" "S" "car1" none []
    (by decide) (by decide) (by decide) (by decide) (by decide)).1⟩

/-- C5 fails on license transfer: transferring a license to one of its staff
members succeeds and leaves the staff row in place, so the new owner is also
staff of their own license. -/
theorem C5_counterexample :
    (transferLicense ⟨[⟨"K", "A", "At"⟩], [], [], [⟨"K", "B", "Bt", "admin", "A"⟩]⟩
        "A" "At" "B" "Bt").1 = TransferResult.ok "K" ∧
    ¬ OwnerNotStaff (transferLicense
        ⟨[⟨"K", "A", "At"⟩], [], [], [⟨"K", "B", "Bt", "admin", "A"⟩]⟩
        "A" "At" "B" "Bt").2 := by decide

/-- C5 amended: the staff-add path does preserve the owner-is-never-staff
invariant (adding the owner as staff is rejected), but license transfer does
not touch the staff rows at all, so transferring to an existing staff member
breaks the invariant. -/
theorem C5_amended_staff_add_preserves (db : DB)
    (key sid stag role addedBy f ft t tt : String)
    (hInv : OwnerNotStaff db) :
    OwnerNotStaff (addLicenseStaff db key sid stag role addedBy).2 ∧
    (transferLicense db f ft t tt).2.license_admins = db.license_admins := by
  constructor
  · by_cases h1 : (db.license_admins.any fun a =>
        a.license_key == key && a.user_id == sid) = true
    · simpa [addLicenseStaff, h1] using hInv
    · have h1f : (db.license_admins.any fun a =>
          a.license_key == key && a.user_id == sid) = false := by simpa using h1
      by_cases h2 : (db.licenses.any fun l =>
          l.license_key == key && l.owner_id == sid) = true
      · simpa [addLicenseStaff, h1f, h2] using hInv
      · have h2f : (db.licenses.any fun l =>
            l.license_key == key && l.owner_id == sid) = false := by simpa using h2
        have hstep : (addLicenseStaff db key sid stag role addedBy).2 =
            { db with license_admins :=
              db.license_admins ++ [⟨key, sid, stag, role, addedBy⟩] } := by
          simp [addLicenseStaff, h1f, h2f]
        rw [hstep]
        unfold OwnerNotStaff
        intro l hl a ha hkeys
        rcases List.mem_append.mp ha with hmem | hone
        · exact hInv l hl a hmem hkeys
        · have ha0 : a = ⟨key, sid, stag, role, addedBy⟩ := by simpa using hone
          subst ha0
          have hnotowner := List.any_eq_false.mp h2f l hl
          intro howner
          apply hnotowner
          simp only [Bool.and_eq_true, beq_iff_eq]
          exact ⟨hkeys, howner⟩
  · unfold transferLicense
    repeat' split
    all_goals rfl

/-- Witness for the amended C5: on a concrete store satisfying the invariant,
even an attempt to add the owner as staff preserves it. -/
theorem C5_amended_witness :
    OwnerNotStaff (⟨[⟨"K", "A", "At"⟩], [], [], []⟩ : DB) ∧
    OwnerNotStaff (addLicenseStaff ⟨[⟨"K", "A", "At"⟩], [], [], []⟩
      "K" "A" "At" "admin" "A").2 :=
  ⟨by decide, (C5_amended_staff_add_preserves ⟨[⟨"K", "A", "At"⟩], [], [], []⟩
    "K" "A" "At" "admin" "A" "A" "At" "B" "Bt" (by decide)).1⟩

/-- C9: in the file-backed variant a username whose first character is the
comment character can always be added — addApprovedUser reports success and
appends the line — while the approval check endpoint answers false for it on
every possible file content, because such lines are filtered out as comments
when the file is read. -/
theorem C9_hash_username_add_but_never_approved (file : List (List Char))
    (u : List Char) (h : u.head? = some '#') :
    (FileSrv.addApprovedUser file u).1 = true ∧
    (FileSrv.addApprovedUser file u).2 = file ++ [u] ∧
    NeverApproved u := by
  have hnever : NeverApproved u := by
    intro f
    unfold FileSrv.checkUser
    rw [Bool.eq_false_iff]
    intro hc
    have hmem : u ∈ FileSrv.getApprovedUsers f := by
      simpa [List.elem_eq_mem] using hc
    have hp := (List.mem_filter.mp hmem).2
    simp [h] at hp
  have hcf : (FileSrv.getApprovedUsers file).contains u = false := hnever file
  have hnm : u ∉ FileSrv.getApprovedUsers file := by
    simpa [List.elem_eq_mem] using hcf
  refine ⟨?_, ?_, hnever⟩
  · simp [FileSrv.addApprovedUser, hnm]
  · simp [FileSrv.addApprovedUser, hnm]

/-- Witness for C9 on a one-line file and a commented username. -/
theorem C9_witness :
    (['#', 'b'] : List Char).head? = some '#' ∧
    (FileSrv.addApprovedUser [['a']] ['#', 'b']).1 = true ∧
    NeverApproved ['#', 'b'] := by
  have h := C9_hash_username_add_but_never_approved [['a']] ['#', 'b'] (by decide)
  exact ⟨by decide, h.1, h.2.2⟩

/-- C8: with no owned license and no explicit key, a grant-management command
resolves by the staff roles of the actor: zero roles is the
no-license-or-role error, two or more is the terminal ambiguous error on the
add, remove and list commands alike and the store stays unchanged, and with
exactly one role that license is used. -/
theorem C8_staff_role_resolution (db0 db1 db2 : DB) (u uname : String)
    (veh : Option String) (r r1 r2 : String × String × String)
    (rest : List (String × String × String))
    (h0own : getUserLicense db0 u = none) (h0r : getUserStaffRoles db0 u = [])
    (h1own : getUserLicense db1 u = none) (h1r : getUserStaffRoles db1 u = [r])
    (h2own : getUserLicense db2 u = none)
    (h2r : getUserStaffRoles db2 u = r1 :: r2 :: rest) :
    authorizeCommand db0 u none uname veh = (.noLicenseOrRole, db0) ∧
    deauthorizeCommand db0 u none uname veh = (.noLicenseOrRole, db0) ∧
    authorizedCommand db0 u none = .noLicenseOrRole ∧
    authorizeCommand db2 u none uname veh = (.ambiguous, db2) ∧
    deauthorizeCommand db2 u none uname veh = (.ambiguous, db2) ∧
    authorizedCommand db2 u none = .ambiguous ∧
    resolveActingLicense db1 u none false = .ok r.1 ∧
    resolveActingLicense db1 u none true = .ok r.1 := by
  refine ⟨?_, ?_, ?_, ?_, ?_, ?_, ?_, ?_⟩ <;>
    simp [authorizeCommand, deauthorizeCommand, authorizedCommand,
      resolveActingLicense, h0own, h0r, h1own, h1r, h2own, h2r]

/-- Witness for C8 on three concrete stores with zero, one and two staff
roles. -/
theorem C8_witness :
    authorizeCommand ⟨[⟨"K1", "O1", "o1"⟩, ⟨"K2", "O2", "o2"⟩], [], [],
        [⟨"K1", "U", "u", "helper", "O1"⟩, ⟨"K2", "U", "u", "admin", "O2"⟩]⟩
      "U" none "x" none =
      (.ambiguous, ⟨[⟨"K1", "O1", "o1"⟩, ⟨"K2", "O2", "o2"⟩], [], [],
        [⟨"K1", "U", "u", "helper", "O1"⟩, ⟨"K2", "U", "u", "admin", "O2"⟩]⟩) ∧
    resolveActingLicense ⟨[⟨"K1", "O1", "o1"⟩], [], [],
        [⟨"K1", "U", "u", "helper", "O1"⟩]⟩ "U" none false = .ok "K1" := by
  have h := C8_staff_role_resolution ⟨[], [], [], []⟩
    ⟨[⟨"K1", "O1", "o1"⟩], [], [], [⟨"K1", "U", "u", "helper", "O1"⟩]⟩
    ⟨[⟨"K1", "O1", "o1"⟩, ⟨"K2", "O2", "o2"⟩], [], [],
      [⟨"K1", "U", "u", "helper", "O1"⟩, ⟨"K2", "U", "u", "admin", "O2"⟩]⟩
    "U" "x" none ("K1", "helper", "o1") ("K1", "helper", "o1")
    ("K2", "admin", "o2") []
    (by decide) (by decide) (by decide) (by decide) (by decide) (by decide)
  exact ⟨h.2.2.2.1, h.2.2.2.2.2.2.1⟩

/-- After rewriting the owner of the rows matching the transferred key, the
new owner lookup finds that key (no row belonged to the new owner before, and
some row carries the key). -/
theorem find_map_transfer_some (ls : List LicenseRow) (t tt k : String)
    (hnot : ∀ l ∈ ls, l.owner_id ≠ t)
    (hex : ∃ l ∈ ls, l.license_key = k) :
    ((ls.map fun l => if l.license_key == k then
        { l with owner_id := t, owner_tag := tt } else l).find?
      (fun l => l.owner_id == t)).map (fun l => l.license_key) = some k := by
  induction ls with
  | nil => simp at hex
  | cons a as ih =>
    rcases hex with ⟨l, hl, hlk⟩
    by_cases hk : a.license_key = k
    · simp only [List.map_cons, hk, beq_self_eq_true, if_true]
      rw [List.find?_cons_of_pos _ (by simp)]
      simpa using hk
    · have hkb : (a.license_key == k) = false := beq_eq_false_iff_ne.mpr hk
      simp only [List.map_cons, hkb, Bool.false_eq_true, if_false]
      rw [List.find?_cons_of_neg]
      · apply ih
        · exact fun x hx => hnot x (List.mem_cons_of_mem _ hx)
        · rcases List.mem_cons.mp hl with rfl | hl2
          · exact absurd hlk hk
          · exact ⟨l, hl2, hlk⟩
      · have := hnot a (List.mem_cons_self a as)
        simpa using this

/-- After rewriting the owner of the rows matching the transferred key, the
old owner no longer owns any row, provided all the rows the old owner had
carried that key. -/
theorem find_map_transfer_none (ls : List LicenseRow) (f t tt k : String)
    (hft : f ≠ t)
    (huniq : ∀ l ∈ ls, l.owner_id = f → l.license_key = k) :
    (ls.map fun l => if l.license_key == k then
        { l with owner_id := t, owner_tag := tt } else l).find?
      (fun l => l.owner_id == f) = none := by
  rw [List.find?_eq_none]
  intro x hx
  rcases List.mem_map.mp hx with ⟨l, hl, rfl⟩
  by_cases hk : l.license_key = k
  · simp only [hk, beq_self_eq_true, if_true]
    simp only [beq_iff_eq]
    exact fun hcontr => hft hcontr.symm
  · have hkb : (l.license_key == k) = false := beq_eq_false_iff_ne.mpr hk
    simp only [hkb, Bool.false_eq_true, if_false]
    simp only [beq_iff_eq]
    exact fun hof => hk (huniq l hl hof)

/-- C6: transfer fails when the source and target owner coincide, when the
source owner has no license, or when the target owner already owns one; on
success the owner identity is replaced — the target owner now finds the
license, the source owner finds none (given the one-license-per-owner
invariant on the source owner) — any pause record for the key has its owner
columns rewritten, and the grant and staff rows are untouched. -/
theorem C6_transfer_spec
    (db1 : DB) (u ut tt1 : String)
    (db2 : DB) (f2 t2 ft2 tt2 : String)
    (hne2 : f2 ≠ t2) (hf2 : getUserLicense db2 f2 = none)
    (db3 : DB) (f3 t3 ft3 tt3 k3 e3 : String) (hne3 : f3 ≠ t3)
    (hf3 : getUserLicense db3 f3 = some k3) (ht3 : getUserLicense db3 t3 = some e3)
    (db4 : DB) (f4 t4 ft4 tt4 k4 : String) (hne4 : f4 ≠ t4)
    (hf4 : getUserLicense db4 f4 = some k4) (ht4 : getUserLicense db4 t4 = none)
    (huniq : ∀ l ∈ db4.licenses, l.owner_id = f4 → l.license_key = k4) :
    transferLicense db1 u ut u tt1 = (.sameUser, db1) ∧
    transferLicense db2 f2 ft2 t2 tt2 = (.fromHasNoLicense, db2) ∧
    transferLicense db3 f3 ft3 t3 tt3 = (.toHasLicense e3, db3) ∧
    (transferLicense db4 f4 ft4 t4 tt4).1 = .ok k4 ∧
    getUserLicense (transferLicense db4 f4 ft4 t4 tt4).2 t4 = some k4 ∧
    getUserLicense (transferLicense db4 f4 ft4 t4 tt4).2 f4 = none ∧
    (transferLicense db4 f4 ft4 t4 tt4).2.authorized_users = db4.authorized_users ∧
    (transferLicense db4 f4 ft4 t4 tt4).2.license_admins = db4.license_admins ∧
    (transferLicense db4 f4 ft4 t4 tt4).2.paused_licenses =
      db4.paused_licenses.map fun p =>
        if p.license_key == k4 then { p with owner_id := t4, owner_tag := tt4 }
        else p := by
  have hne2b : (f2 == t2) = false := beq_eq_false_iff_ne.mpr hne2
  have hne3b : (f3 == t3) = false := beq_eq_false_iff_ne.mpr hne3
  have hne4b : (f4 == t4) = false := beq_eq_false_iff_ne.mpr hne4
  rcases Option.map_eq_some'.mp hf4 with ⟨r, hrfind, hrk⟩
  have hrmem := List.mem_of_find?_eq_some hrfind
  have hfind4 : db4.licenses.find? (fun l => l.owner_id == t4) = none :=
    Option.map_eq_none'.mp ht4
  have hnot4 : ∀ l ∈ db4.licenses, l.owner_id ≠ t4 := by
    intro l hl
    have := List.find?_eq_none.mp hfind4 l hl
    simpa using this
  have hcount : (db4.licenses.countP fun l => l.license_key == k4) ≠ 0 := by
    rw [Ne, List.countP_eq_zero]
    push_neg
    exact ⟨r, hrmem, by simp [hrk]⟩
  have hcountb : ((db4.licenses.countP fun l => l.license_key == k4) == 0) = false :=
    beq_eq_false_iff_ne.mpr hcount
  have hmain : transferLicense db4 f4 ft4 t4 tt4 =
      (.ok k4,
       { db4 with
         licenses := db4.licenses.map fun l =>
           if l.license_key == k4 then
             { l with owner_id := t4, owner_tag := tt4 } else l,
         paused_licenses := db4.paused_licenses.map fun p =>
           if p.license_key == k4 then
             { p with owner_id := t4, owner_tag := tt4 } else p }) := by
    simp [transferLicense, hne4b, hf4, ht4, hcountb]
  refine ⟨?_, ?_, ?_, ?_, ?_, ?_, ?_, ?_, ?_⟩
  · simp [transferLicense]
  · simp [transferLicense, hne2b, hf2]
  · simp [transferLicense, hne3b, hf3, ht3]
  · rw [hmain]
  · rw [hmain]
    unfold getUserLicense
    exact find_map_transfer_some db4.licenses t4 tt4 k4 hnot4 ⟨r, hrmem, hrk⟩
  · rw [hmain]
    unfold getUserLicense
    rw [find_map_transfer_none db4.licenses f4 t4 tt4 k4 hne4 huniq]
    rfl
  · rw [hmain]
  · rw [hmain]
  · rw [hmain]

/-- Witness for C6 on concrete stores covering the three failure cases and a
successful transfer of a paused license with a grant and a staff row. -/
theorem C6_witness :
    getUserLicense (transferLicense
      ⟨[⟨"K", "A", "At"⟩], [⟨"K", "S", "car1"⟩], [⟨"K", "A", "At"⟩],
        [⟨"K", "B", "Bt", "helper", "A"⟩]⟩ "A" "At" "C" "Ct").2 "C" = some "K" ∧
    getUserLicense (transferLicense
      ⟨[⟨"K", "A", "At"⟩], [⟨"K", "S", "car1"⟩], [⟨"K", "A", "At"⟩],
        [⟨"K", "B", "Bt", "helper", "A"⟩]⟩ "A" "At" "C" "Ct").2 "A" = none ∧
    (transferLicense
      ⟨[⟨"K", "A", "At"⟩], [⟨"K", "S", "car1"⟩], [⟨"K", "A", "At"⟩],
        [⟨"K", "B", "Bt", "helper", "A"⟩]⟩ "A" "At" "C" "Ct").2.license_admins =
      [⟨"K", "B", "Bt", "helper", "A"⟩] := by
  have h := C6_transfer_spec
    ⟨[], [], [], []⟩ "A" "At" "Zt"
    ⟨[], [], [], []⟩ "A" "B" "At" "Bt" (by decide) (by decide)
    ⟨[⟨"K1", "A", "At"⟩, ⟨"K2", "B", "Bt"⟩], [], [], []⟩ "A" "B" "At" "Bt"
      "K1" "K2" (by decide) (by decide) (by decide)
    ⟨[⟨"K", "A", "At"⟩], [⟨"K", "S", "car1"⟩], [⟨"K", "A", "At"⟩],
      [⟨"K", "B", "Bt", "helper", "A"⟩]⟩ "A" "C" "At" "Ct" "K"
      (by decide) (by decide) (by decide) (by decide)
  exact ⟨h.2.2.2.2.1, h.2.2.2.2.2.1, h.2.2.2.2.2.2.2.1⟩
